import Mathlib

/-!
Verification of the `TorchTrainer` epoch-driven training-loop controller
(`src/torch_trainer/_utils.py`).

The controller's bookkeeping state (loss histories, epoch counter, completion
flag, elapsed time, the network's training-mode flag and the per-epoch
temporary loss fields) is embedded as an explicit record `TrainerState`.
The run-time configuration fixed at construction (`n_epochs`, `clip_rate`,
presence of valid/test iterators, the initial network mode) is the record
`TrainerConfig`.  Loss values are modelled as rationals.

The injected computation (forward / loss / optimizer) is opaque to the
controller: what the controller observes of the train phase of epoch `e` is
the sequence of per-batch scalar loss values, modelled by
`TrainerConfig.train_losses e` (and likewise for valid and test sources).
Wall-clock time is external: `epoch_duration e` is the delta measured by the
timing phase of epoch `e`.

Cancellation (`KeyboardInterrupt`) and computation errors are modelled as an
externally scheduled per-epoch signal (`EpochSignal`), and `train` returns a
`RunOutcome` saying whether the call returned normally, propagated a
cancellation, or propagated a non-cancellation exception.

Two ghost trace fields are carried in the state so that event-counting
properties are expressible: `clip_calls` counts invocations of
`torch.nn.utils.clip_grad_norm_` (line 290) and `reports` records each push
to the presentation sink (`draw_info`, line 328).
-/

namespace TorchTrainer

/-- Construction-time configuration of the controller (immutable during runs).
Mirrors the constructor arguments and derived flags of `TorchTrainer.__init__`:
`n_epochs`, `clip_rate`, `_has_valid` / `_has_test`, and
`_initial_mode = network.training`.  `train_losses e` is the list of per-batch
loss values the injected computation produces during the train phase of epoch
`e` (empty list = the iterator yields no batches that epoch); similarly for
`valid_losses` and `test_losses`.  `epoch_duration e` is the wall-clock delta
observed by `__calc_timing_stats` at epoch `e`. -/
structure TrainerConfig where
  n_epochs : ℕ
  clip_rate : Option ℚ
  has_valid : Bool
  has_test : Bool
  initial_mode : Bool
  train_losses : ℕ → List ℚ
  valid_losses : ℕ → List ℚ
  test_losses : ℕ → List ℚ
  epoch_duration : ℕ → ℚ

/-- The controller's mutable bookkeeping state (`TorchTrainer.__slots__`):
the three loss histories, `_epoch`, `_completed`, `_time_elapsed`, the
network's mode flag (`network.training`), and the per-epoch temporaries
`__train_loss`, `__val_loss`, `__test_loss`.  `reports` and `clip_calls` are
ghost event traces (see module docstring). -/
structure TrainerState where
  train_loss_history : List ℚ
  valid_loss_history : List ℚ
  test_loss_history : List ℚ
  epoch : ℕ
  completed : Bool
  time_elapsed : ℚ
  network_mode : Bool
  train_loss_tmp : ℚ
  val_loss_tmp : ℚ
  test_loss_tmp : ℚ
  reports : List ℕ
  clip_calls : ℕ
deriving Repr, DecidableEq

/-- State established by `__init__` (lines 144-170): empty histories,
`epoch = 1`, `completed = False`, `time_elapsed = 0`, network mode as given
at construction, `__val_loss = __test_loss = 0.0`. -/
def initState (cfg : TrainerConfig) : TrainerState :=
  { train_loss_history := []
    valid_loss_history := []
    test_loss_history := []
    epoch := 1
    completed := false
    time_elapsed := 0
    network_mode := cfg.initial_mode
    train_loss_tmp := 0
    val_loss_tmp := 0
    test_loss_tmp := 0
    reports := []
    clip_calls := 0 }

/-- `TorchTrainer.clear_history` (lines 254-260): empties the three
histories and resets `_epoch`, `_completed`, `_time_elapsed`; touches
nothing else. -/
def clear_history (s : TrainerState) : TrainerState :=
  { s with
    valid_loss_history := []
    train_loss_history := []
    test_loss_history := []
    epoch := 1
    completed := false
    time_elapsed := 0 }

/-- `self._train_loss_history.append(self.__train_loss)` (line 335/343). -/
def appendTrain (s : TrainerState) : TrainerState :=
  { s with train_loss_history := s.train_loss_history ++ [s.train_loss_tmp] }

/-- `self._valid_loss_history.append(self.__val_loss)` (line 337/345). -/
def appendValid (s : TrainerState) : TrainerState :=
  { s with valid_loss_history := s.valid_loss_history ++ [s.val_loss_tmp] }

/-- `self._test_loss_history.append(self.__test_loss)` (line 339/347). -/
def appendTest (s : TrainerState) : TrainerState :=
  { s with test_loss_history := s.test_loss_history ++ [s.test_loss_tmp] }

/-- Second statement of `__try_save_loss_history`:
`if self._has_valid: append`. -/
def trySaveValidStep (cfg : TrainerConfig) (s : TrainerState) : TrainerState :=
  if cfg.has_valid then appendValid s else s

/-- Third statement of `__try_save_loss_history`:
`if self._has_test: append`. -/
def trySaveTestStep (cfg : TrainerConfig) (s : TrainerState) : TrainerState :=
  if cfg.has_test then appendTest s else s

/-- `TorchTrainer.__try_save_loss_history` (lines 334-339): append the train
loss unconditionally, then the valid loss iff valid is configured, then the
test loss iff test is configured. -/
def try_save_loss_history (cfg : TrainerConfig) (s : TrainerState) : TrainerState :=
  trySaveTestStep cfg (trySaveValidStep cfg (appendTrain s))

/-- The sequence of append actions `__try_save_loss_history` performs for a
given configuration, used to model a cancellation arriving after any number
of them. -/
inductive CommitAction where
  | ctrain
  | cvalid
  | ctest
deriving Repr, DecidableEq

/-- Execute one commit append. -/
def applyCommit : CommitAction → TrainerState → TrainerState
  | .ctrain, s => appendTrain s
  | .cvalid, s => appendValid s
  | .ctest, s => appendTest s

/-- The appends `__try_save_loss_history` performs, in program order. -/
def commitActions (cfg : TrainerConfig) : List CommitAction :=
  [CommitAction.ctrain]
    ++ (if cfg.has_valid then [CommitAction.cvalid] else [])
    ++ (if cfg.has_test then [CommitAction.ctest] else [])

/-- The state after `__try_save_loss_history` has performed its first `k`
appends and a `KeyboardInterrupt` aborts it at that point. -/
def trySaveFirst (cfg : TrainerConfig) (k : ℕ) (s : TrainerState) : TrainerState :=
  ((commitActions cfg).take k).foldl (fun t a => applyCommit a t) s

/-- First statement of `__retry_save_loss_history` (line 342-343):
`if len(self._train_loss_history) != self._epoch: append`. -/
def retryTrainStep (s : TrainerState) : TrainerState :=
  if s.train_loss_history.length ≠ s.epoch then appendTrain s else s

/-- Second statement of `__retry_save_loss_history` (line 344-345):
`if self._has_valid and len(valid) < len(train): append`. -/
def retryValidStep (cfg : TrainerConfig) (s : TrainerState) : TrainerState :=
  if cfg.has_valid ∧ s.valid_loss_history.length < s.train_loss_history.length then
    appendValid s
  else s

/-- Third statement of `__retry_save_loss_history` (line 346-347):
`if self._has_test and len(test) < len(valid): append`. -/
def retryTestStep (cfg : TrainerConfig) (s : TrainerState) : TrainerState :=
  if cfg.has_test ∧ s.test_loss_history.length < s.valid_loss_history.length then
    appendTest s
  else s

/-- `TorchTrainer.__retry_save_loss_history` (lines 341-347): the
length-comparison based idempotent re-commit run from the
`except KeyboardInterrupt` handler. -/
def retry_save_loss_history (cfg : TrainerConfig) (s : TrainerState) : TrainerState :=
  retryTestStep cfg (retryValidStep cfg (retryTrainStep s))

/-- `TorchTrainer.__calc_timing_stats` (lines 349-354): add the measured
wall-clock delta of the current epoch to `_time_elapsed`. -/
def calc_timing_stats (cfg : TrainerConfig) (s : TrainerState) : TrainerState :=
  { s with time_elapsed := s.time_elapsed + cfg.epoch_duration s.epoch }

/-- `TorchTrainer.draw_info` (line 328): push the per-epoch report to the
presentation sink; modelled as recording the epoch number of the report. -/
def draw_info (s : TrainerState) : TrainerState :=
  { s with reports := s.reports ++ [s.epoch] }

/-- `self._epoch += 1` (line 329). -/
def incEpoch (s : TrainerState) : TrainerState :=
  { s with epoch := s.epoch + 1 }

/-- The `finally` block of the commit try-statement (lines 326-329):
`__calc_timing_stats(); draw_info(); self._epoch += 1`. -/
def finallyBlock (cfg : TrainerConfig) (s : TrainerState) : TrainerState :=
  incEpoch (draw_info (calc_timing_stats cfg s))

/-- One iteration of the train batch loop (lines 284-293): zero_grad,
forward, loss, backward, clip iff `clip_rate is not None` (between backward
and the optimizer step), optimizer step, `train_loss += loss.item()`.
The accumulator is (accumulated loss, clip-call count). -/
def trainBatchFold (clip_rate : Option ℚ) (acc : ℚ × ℕ) (loss : ℚ) : ℚ × ℕ :=
  (acc.1 + loss, if clip_rate.isSome then acc.2 + 1 else acc.2)

/-- The whole train batch loop over the epoch's batches. -/
def trainLoopAcc (clip_rate : Option ℚ) (losses : List ℚ) : ℚ × ℕ :=
  losses.foldl (trainBatchFold clip_rate) (0, 0)

/-- The train phase of one epoch (lines 280-296).  `nb` is the current
binding of the local variable `n_batch` of `train()` — `Option.none` when it
has never been bound in this call.  The loop rebinds `n_batch` only if the
iterator yields at least one batch; `train_loss /= n_batch` then raises a
`NameError` (modelled as `Except.error`, a non-cancellation failure) exactly
when `n_batch` is still unbound.  On success returns the updated state
(mode set to training, `__train_loss` set to the mean) and the `n_batch`
binding. -/
def trainPhase (cfg : TrainerConfig) (s : TrainerState) (nb : Option ℕ) :
    Except TrainerState (TrainerState × ℕ) :=
  let tl := cfg.train_losses s.epoch
  let acc := trainLoopAcc cfg.clip_rate tl
  let s1 : TrainerState := { s with network_mode := true, clip_calls := s.clip_calls + acc.2 }
  match (if tl.isEmpty then nb else some tl.length) with
  | Option.none => Except.error s1
  | some n => Except.ok ({ s1 with train_loss_tmp := acc.1 / (n : ℚ) }, n)

/-- The state after a successful train phase over a non-empty batch list:
mode set to training, one clip call per batch when clipping is configured,
and `__train_loss` holding the batch-count-weighted mean. -/
def trainOkState (cfg : TrainerConfig) (s : TrainerState) : TrainerState :=
  { s with
    network_mode := true
    clip_calls := s.clip_calls
      + (if cfg.clip_rate.isSome then (cfg.train_losses s.epoch).length else 0)
    train_loss_tmp :=
      (cfg.train_losses s.epoch).sum / ((cfg.train_losses s.epoch).length : ℚ) }

/-- One evaluation loop (lines 305-309 / 313-317): when the iterator yields
batches, `n_batch` is rebound to their count and the mean is their sum over
that count; when it yields none, the loop body never runs and the accumulated
`0` is divided by the stale `n_batch` binding.  Returns (loss value, new
`n_batch` binding). -/
def evalLoopStep (losses : List ℚ) (nb : ℕ) : ℚ × ℕ :=
  if losses.isEmpty then ((0 : ℚ) / (nb : ℚ), nb)
  else (losses.sum / (losses.length : ℚ), losses.length)

/-- The evaluation phase (lines 298-318): entered only if at least one of
valid/test is configured; sets the network to evaluation mode, then runs the
valid loop iff valid is configured and the test loop iff test is configured,
storing `__val_loss` / `__test_loss`.  `n` is the `n_batch` binding coming
out of the train loop; it threads through both loops. -/
def evalPhase (cfg : TrainerConfig) (s : TrainerState) (n : ℕ) : TrainerState × ℕ :=
  if cfg.has_valid ∨ cfg.has_test then
    let s1 : TrainerState := { s with network_mode := false }
    let r1 :=
      if cfg.has_valid then
        let v := evalLoopStep (cfg.valid_losses s.epoch) n
        (({ s1 with val_loss_tmp := v.1 } : TrainerState), v.2)
      else (s1, n)
    if cfg.has_test then
      let t := evalLoopStep (cfg.test_losses s.epoch) r1.2
      (({ r1.1 with test_loss_tmp := t.1 } : TrainerState), t.2)
    else r1
  else (s, n)

/-- External fault injected into one epoch of `train()`:
`nosig` = the epoch runs undisturbed;
`errorTrain p` = a non-cancellation exception in the forward / loss /
backward / clip / optimizer step of the batch after `p` batches completed;
`cancelTrain` = a `KeyboardInterrupt` at the start of the train phase;
`cancelEval` = a `KeyboardInterrupt` when the evaluation phase begins (at
the same program point, just before the commit, when no evaluation phase is
configured);
`cancelCommit k` = a `KeyboardInterrupt` inside `__try_save_loss_history`
after `k` of its appends completed. -/
inductive EpochSignal where
  | nosig
  | errorTrain (p : ℕ)
  | cancelTrain
  | cancelEval
  | cancelCommit (k : ℕ)
deriving Repr, DecidableEq

/-- How a call to `train()` ends: returns normally, propagates a
`KeyboardInterrupt`, or propagates a non-cancellation exception.  The payload
is the controller state the caller observes at that point. -/
inductive RunOutcome where
  | ok (s : TrainerState)
  | cancelled (s : TrainerState)
  | failed (s : TrainerState)
deriving Repr, DecidableEq

/-- The controller state carried by an outcome. -/
def RunOutcome.state : RunOutcome → TrainerState
  | .ok s => s
  | .cancelled s => s
  | .failed s => s

/-- Outcome classifiers. -/
def RunOutcome.isOk : RunOutcome → Bool
  | .ok _ => true
  | _ => false

def RunOutcome.isCancelled : RunOutcome → Bool
  | .cancelled _ => true
  | _ => false

def RunOutcome.isFailed : RunOutcome → Bool
  | .failed _ => true
  | _ => false

/-- The interrupted-commit path (lines 320-329): the `try` performed `k`
appends, the `except KeyboardInterrupt` handler runs
`__retry_save_loss_history()` and restores the network mode to
`_initial_mode`, the re-raise then passes through the `finally` block
(timing, report, epoch increment) before propagating. -/
def commitCancelled (cfg : TrainerConfig) (k : ℕ) (s : TrainerState) : TrainerState :=
  finallyBlock cfg
    { retry_save_loss_history cfg (trySaveFirst cfg k s) with network_mode := cfg.initial_mode }

/-- The undisturbed commit path (lines 320-329): `__try_save_loss_history()`
succeeds, then the `finally` block runs. -/
def commitNormal (cfg : TrainerConfig) (s : TrainerState) : TrainerState :=
  finallyBlock cfg (try_save_loss_history cfg s)

/-- One iteration of the epoch loop of `TorchTrainer.train` (lines 278-329)
under the injected signal.  Returns the outcome (`ok` means the epoch
completed and the loop continues) together with the updated binding of the
local `n_batch` variable. -/
def epochStep (cfg : TrainerConfig) (sig : EpochSignal) (s : TrainerState) (nb : Option ℕ) :
    RunOutcome × Option ℕ :=
  match sig with
  | .cancelTrain =>
      (RunOutcome.cancelled { s with network_mode := true }, nb)
  | .errorTrain p =>
      (RunOutcome.failed
        { s with
          network_mode := true
          clip_calls :=
            s.clip_calls + (trainLoopAcc cfg.clip_rate ((cfg.train_losses s.epoch).take p)).2 },
        nb)
  | .cancelEval =>
      match trainPhase cfg s nb with
      | .error sE => (RunOutcome.failed sE, nb)
      | .ok (sT, n) =>
          if cfg.has_valid ∨ cfg.has_test then
            (RunOutcome.cancelled { sT with network_mode := false }, some n)
          else
            (RunOutcome.cancelled sT, some n)
  | .cancelCommit k =>
      match trainPhase cfg s nb with
      | .error sE => (RunOutcome.failed sE, nb)
      | .ok (sT, n) =>
          let r := evalPhase cfg sT n
          (RunOutcome.cancelled (commitCancelled cfg k r.1), some r.2)
  | .nosig =>
      match trainPhase cfg s nb with
      | .error sE => (RunOutcome.failed sE, nb)
      | .ok (sT, n) =>
          let r := evalPhase cfg sT n
          (RunOutcome.ok (commitNormal cfg r.1), some r.2)

/-- The epoch loop of `train()` with explicit remaining-iteration count
(`range(self._epoch, n_epochs + 1)` runs `n_epochs + 1 - epoch` iterations,
and `_epoch` is incremented exactly once per iteration, keeping the loop
variable and `_epoch` in lock step).  When the loop ends, lines 331-332 set
`_completed = True` and restore the network mode. -/
def trainLoop (cfg : TrainerConfig) (sched : ℕ → EpochSignal) :
    ℕ → TrainerState → Option ℕ → RunOutcome
  | 0, s, _ =>
      RunOutcome.ok { s with completed := true, network_mode := cfg.initial_mode }
  | fuel + 1, s, nb =>
      match epochStep cfg (sched s.epoch) s nb with
      | (RunOutcome.ok s1, nb1) => trainLoop cfg sched fuel s1 nb1
      | (out, _) => out

/-- `TorchTrainer.train` (lines 262-332): run the epoch loop from the
current state.  `sched e` is the fault injected into epoch `e` (if that
epoch is reached).  The local `n_batch` starts unbound. -/
def train (cfg : TrainerConfig) (sched : ℕ → EpochSignal) (s : TrainerState) : RunOutcome :=
  trainLoop cfg sched (cfg.n_epochs + 1 - s.epoch) s Option.none

/-! ### A small Python heap model for the copy-semantics accessors

The three loss-history properties (lines 210-220) each return
`self._<x>_loss_history.copy()`.  To state that this is a defensive copy we
model list objects as cells of a heap addressed by naturals: `copy()`
allocates a fresh cell holding the same contents. -/

/-- A heap of Python list objects: contents per reference, plus the next
fresh reference. -/
structure Heap where
  contents : ℕ → List ℚ
  nextRef : ℕ

/-- Allocate a fresh list object with the given contents. -/
def Heap.alloc (h : Heap) (v : List ℚ) : Heap × ℕ :=
  ({ contents := fun r => if r = h.nextRef then v else h.contents r
     nextRef := h.nextRef + 1 },
   h.nextRef)

/-- In-place mutation of the list object behind a reference (e.g. `append`
by the caller on the returned list). -/
def Heap.write (h : Heap) (r : ℕ) (v : List ℚ) : Heap :=
  { h with contents := fun x => if x = r then v else h.contents x }

/-- A loss-history accessor (lines 210-220, identical for train, valid and
test): `return self._<x>_loss_history.copy()` — allocate a fresh list with
the contents of the internal list `internal` and hand back its reference. -/
def lossHistoryAccessor (h : Heap) (internal : ℕ) : Heap × ℕ :=
  h.alloc (h.contents internal)

/-! ### Derived notions and concrete instances used in the statements -/

/-- The history-length invariant of the spec (section 3): at a stable
between-epoch observation point, the train history has one entry per
completed epoch (`epoch - 1` of them), the valid history matches it iff
valid is configured (else stays empty), and likewise for test. -/
def histLenInv (cfg : TrainerConfig) (s : TrainerState) : Prop :=
  1 ≤ s.epoch ∧
  s.train_loss_history.length = s.epoch - 1 ∧
  s.valid_loss_history.length = (if cfg.has_valid then s.epoch - 1 else 0) ∧
  s.test_loss_history.length = (if cfg.has_test then s.epoch - 1 else 0)

/-- A configuration with a test source but no valid source (the
configuration on which the recovery routine misbehaves). -/
def cfgTestOnly : TrainerConfig :=
  { n_epochs := 1
    clip_rate := Option.none
    has_valid := false
    has_test := true
    initial_mode := false
    train_losses := fun _ => [1]
    valid_losses := fun _ => []
    test_losses := fun _ => [7]
    epoch_duration := fun _ => 1 }

/-- A cancellation arriving during the commit of epoch 1, after the first
append (the train entry) has been performed. -/
def schedCommitCancel1 : ℕ → EpochSignal :=
  fun e => if e = 1 then EpochSignal.cancelCommit 1 else EpochSignal.nosig

/-- A fault-free schedule. -/
def schedClean : ℕ → EpochSignal :=
  fun _ => EpochSignal.nosig

/-- A full configuration: valid and test sources present, clipping enabled,
train batches with losses 2, 4, 6. -/
def cfgFull : TrainerConfig :=
  { n_epochs := 2
    clip_rate := some 1
    has_valid := true
    has_test := true
    initial_mode := false
    train_losses := fun _ => [2, 4, 6]
    valid_losses := fun _ => [1, 3]
    test_losses := fun _ => [5]
    epoch_duration := fun _ => 1 }

/-- A minimal configuration with no evaluation sources, constructed with the
network in evaluation mode (`initial_mode = false`). -/
def cfgPlain : TrainerConfig :=
  { n_epochs := 1
    clip_rate := Option.none
    has_valid := false
    has_test := false
    initial_mode := false
    train_losses := fun _ => [3]
    valid_losses := fun _ => []
    test_losses := fun _ => []
    epoch_duration := fun _ => 1 }

/-- A cancellation arriving at the start of the train phase of epoch 1. -/
def schedTrainCancel1 : ℕ → EpochSignal :=
  fun e => if e = 1 then EpochSignal.cancelTrain else EpochSignal.nosig

/-- A configuration whose train source yields no batches. -/
def cfgEmptyTrain : TrainerConfig :=
  { n_epochs := 3
    clip_rate := some 1
    has_valid := true
    has_test := false
    initial_mode := true
    train_losses := fun _ => []
    valid_losses := fun _ => [1]
    test_losses := fun _ => []
    epoch_duration := fun _ => 1 }

end TorchTrainer

namespace TorchTrainer

/-! ### Helper lemmas about the phase building blocks -/

lemma foldl_trainBatchFold (c : Option ℚ) (l : List ℚ) (a : ℚ) (k : ℕ) :
    l.foldl (trainBatchFold c) (a, k)
      = (a + l.sum, k + if c.isSome then l.length else 0) := by
  induction l generalizing a k with
  | nil => simp
  | cons x xs ih =>
      cases c with
      | none =>
          simp only [List.foldl_cons, trainBatchFold, Option.isSome_none, List.sum_cons,
            Bool.false_eq_true, if_false, List.length_cons]
          rw [ih]
          simp [add_assoc]
      | some r =>
          simp only [List.foldl_cons, trainBatchFold, Option.isSome_some, List.sum_cons,
            if_true, List.length_cons]
          rw [ih]
          simp only [Option.isSome_some, if_true, Prod.mk.injEq]
          constructor
          · ring
          · omega

lemma trainLoopAcc_eq (c : Option ℚ) (l : List ℚ) :
    trainLoopAcc c l = (l.sum, if c.isSome then l.length else 0) := by
  simpa [trainLoopAcc] using foldl_trainBatchFold c l 0 0

lemma trainPhase_eq_ok (cfg : TrainerConfig) (s : TrainerState) (nb : Option ℕ)
    (h : cfg.train_losses s.epoch ≠ []) :
    trainPhase cfg s nb
      = Except.ok (trainOkState cfg s, (cfg.train_losses s.epoch).length) := by
  simp [trainPhase, trainOkState, trainLoopAcc_eq, h]

lemma trainPhase_eq_error (cfg : TrainerConfig) (s : TrainerState)
    (h : cfg.train_losses s.epoch = []) :
    trainPhase cfg s Option.none = Except.error { s with network_mode := true } := by
  simp [trainPhase, trainLoopAcc_eq, h]

lemma trainPhase_eq_stale (cfg : TrainerConfig) (s : TrainerState) (n : ℕ)
    (h : cfg.train_losses s.epoch = []) :
    trainPhase cfg s (some n) = Except.ok
      ({ s with network_mode := true, train_loss_tmp := 0 }, n) := by
  simp [trainPhase, trainLoopAcc_eq, h]

lemma evalPhase_preserves (cfg : TrainerConfig) (s : TrainerState) (n : ℕ) :
    (evalPhase cfg s n).1.train_loss_history = s.train_loss_history ∧
    (evalPhase cfg s n).1.valid_loss_history = s.valid_loss_history ∧
    (evalPhase cfg s n).1.test_loss_history = s.test_loss_history ∧
    (evalPhase cfg s n).1.epoch = s.epoch ∧
    (evalPhase cfg s n).1.completed = s.completed ∧
    (evalPhase cfg s n).1.time_elapsed = s.time_elapsed ∧
    (evalPhase cfg s n).1.reports = s.reports ∧
    (evalPhase cfg s n).1.clip_calls = s.clip_calls ∧
    (evalPhase cfg s n).1.train_loss_tmp = s.train_loss_tmp := by
  cases hv : cfg.has_valid <;> cases ht : cfg.has_test <;> simp [evalPhase, hv, ht]

lemma try_save_fields (cfg : TrainerConfig) (s : TrainerState) :
    (try_save_loss_history cfg s).train_loss_history
        = s.train_loss_history ++ [s.train_loss_tmp] ∧
    (try_save_loss_history cfg s).valid_loss_history
        = s.valid_loss_history ++ (if cfg.has_valid then [s.val_loss_tmp] else []) ∧
    (try_save_loss_history cfg s).test_loss_history
        = s.test_loss_history ++ (if cfg.has_test then [s.test_loss_tmp] else []) ∧
    (try_save_loss_history cfg s).epoch = s.epoch ∧
    (try_save_loss_history cfg s).completed = s.completed ∧
    (try_save_loss_history cfg s).time_elapsed = s.time_elapsed ∧
    (try_save_loss_history cfg s).reports = s.reports ∧
    (try_save_loss_history cfg s).clip_calls = s.clip_calls ∧
    (try_save_loss_history cfg s).network_mode = s.network_mode := by
  cases hv : cfg.has_valid <;> cases ht : cfg.has_test <;>
    simp [try_save_loss_history, trySaveTestStep, trySaveValidStep, appendTrain, appendValid,
      appendTest, hv, ht]

lemma applyCommit_fields (a : CommitAction) (s : TrainerState) :
    (applyCommit a s).epoch = s.epoch ∧
    (applyCommit a s).completed = s.completed ∧
    (applyCommit a s).time_elapsed = s.time_elapsed ∧
    (applyCommit a s).reports = s.reports ∧
    (applyCommit a s).clip_calls = s.clip_calls ∧
    (applyCommit a s).network_mode = s.network_mode := by
  cases a <;> simp [applyCommit, appendTrain, appendValid, appendTest]

lemma foldl_applyCommit_fields (l : List CommitAction) (s : TrainerState) :
    (l.foldl (fun t a => applyCommit a t) s).epoch = s.epoch ∧
    (l.foldl (fun t a => applyCommit a t) s).completed = s.completed ∧
    (l.foldl (fun t a => applyCommit a t) s).time_elapsed = s.time_elapsed ∧
    (l.foldl (fun t a => applyCommit a t) s).reports = s.reports ∧
    (l.foldl (fun t a => applyCommit a t) s).clip_calls = s.clip_calls ∧
    (l.foldl (fun t a => applyCommit a t) s).network_mode = s.network_mode := by
  induction l generalizing s with
  | nil => simp
  | cons a l ih =>
      simp only [List.foldl_cons]
      obtain ⟨h1, h2, h3, h4, h5, h6⟩ := ih (applyCommit a s)
      obtain ⟨g1, g2, g3, g4, g5, g6⟩ := applyCommit_fields a s
      exact ⟨h1.trans g1, h2.trans g2, h3.trans g3, h4.trans g4, h5.trans g5, h6.trans g6⟩

lemma trySaveFirst_fields (cfg : TrainerConfig) (k : ℕ) (s : TrainerState) :
    (trySaveFirst cfg k s).epoch = s.epoch ∧
    (trySaveFirst cfg k s).completed = s.completed ∧
    (trySaveFirst cfg k s).time_elapsed = s.time_elapsed ∧
    (trySaveFirst cfg k s).reports = s.reports ∧
    (trySaveFirst cfg k s).clip_calls = s.clip_calls ∧
    (trySaveFirst cfg k s).network_mode = s.network_mode := by
  exact foldl_applyCommit_fields _ s

lemma retry_fields (cfg : TrainerConfig) (s : TrainerState) :
    (retry_save_loss_history cfg s).epoch = s.epoch ∧
    (retry_save_loss_history cfg s).completed = s.completed ∧
    (retry_save_loss_history cfg s).time_elapsed = s.time_elapsed ∧
    (retry_save_loss_history cfg s).reports = s.reports ∧
    (retry_save_loss_history cfg s).clip_calls = s.clip_calls ∧
    (retry_save_loss_history cfg s).network_mode = s.network_mode := by
  unfold retry_save_loss_history retryTestStep retryValidStep retryTrainStep
  split <;> split <;> split <;>
    simp [appendTrain, appendValid, appendTest]

lemma finallyBlock_fields (cfg : TrainerConfig) (s : TrainerState) :
    (finallyBlock cfg s).train_loss_history = s.train_loss_history ∧
    (finallyBlock cfg s).valid_loss_history = s.valid_loss_history ∧
    (finallyBlock cfg s).test_loss_history = s.test_loss_history ∧
    (finallyBlock cfg s).epoch = s.epoch + 1 ∧
    (finallyBlock cfg s).completed = s.completed ∧
    (finallyBlock cfg s).time_elapsed = s.time_elapsed + cfg.epoch_duration s.epoch ∧
    (finallyBlock cfg s).reports = s.reports ++ [s.epoch] ∧
    (finallyBlock cfg s).clip_calls = s.clip_calls ∧
    (finallyBlock cfg s).network_mode = s.network_mode := by
  simp [finallyBlock, incEpoch, draw_info, calc_timing_stats]

lemma trySaveValidStep_pos (cfg : TrainerConfig) (s : TrainerState) (h : cfg.has_valid = true) :
    trySaveValidStep cfg s = appendValid s := by
  simp [trySaveValidStep, h]

lemma trySaveValidStep_neg (cfg : TrainerConfig) (s : TrainerState) (h : cfg.has_valid = false) :
    trySaveValidStep cfg s = s := by
  simp [trySaveValidStep, h]

lemma trySaveTestStep_pos (cfg : TrainerConfig) (s : TrainerState) (h : cfg.has_test = true) :
    trySaveTestStep cfg s = appendTest s := by
  simp [trySaveTestStep, h]

lemma trySaveTestStep_neg (cfg : TrainerConfig) (s : TrainerState) (h : cfg.has_test = false) :
    trySaveTestStep cfg s = s := by
  simp [trySaveTestStep, h]

lemma retryTrainStep_pos (s : TrainerState) (h : s.train_loss_history.length ≠ s.epoch) :
    retryTrainStep s = appendTrain s := by
  simp [retryTrainStep, h]

lemma retryTrainStep_neg (s : TrainerState) (h : s.train_loss_history.length = s.epoch) :
    retryTrainStep s = s := by
  simp [retryTrainStep, h]

lemma retryValidStep_pos (cfg : TrainerConfig) (s : TrainerState) (h1 : cfg.has_valid = true)
    (h2 : s.valid_loss_history.length < s.train_loss_history.length) :
    retryValidStep cfg s = appendValid s := by
  simp [retryValidStep, h1, h2]

lemma retryValidStep_negFlag (cfg : TrainerConfig) (s : TrainerState)
    (h : cfg.has_valid = false) :
    retryValidStep cfg s = s := by
  simp [retryValidStep, h]

lemma retryValidStep_negLen (cfg : TrainerConfig) (s : TrainerState)
    (h : ¬ s.valid_loss_history.length < s.train_loss_history.length) :
    retryValidStep cfg s = s := by
  simp [retryValidStep, h]

lemma retryTestStep_pos (cfg : TrainerConfig) (s : TrainerState) (h1 : cfg.has_test = true)
    (h2 : s.test_loss_history.length < s.valid_loss_history.length) :
    retryTestStep cfg s = appendTest s := by
  simp [retryTestStep, h1, h2]

lemma retryTestStep_negFlag (cfg : TrainerConfig) (s : TrainerState)
    (h : cfg.has_test = false) :
    retryTestStep cfg s = s := by
  simp [retryTestStep, h]

lemma retryTestStep_negLen (cfg : TrainerConfig) (s : TrainerState)
    (h : ¬ s.test_loss_history.length < s.valid_loss_history.length) :
    retryTestStep cfg s = s := by
  simp [retryTestStep, h]

/-- The heart of the interrupted-commit contract: from a consistent
pre-commit state (each history holding exactly `epoch - 1` entries when its
source is configured), running the recovery routine after the commit was
interrupted after any number `k` of its appends produces exactly the state
the uninterrupted commit produces — provided a valid source is present
whenever a test source is (the recovery routine compares the test length
against the valid length). -/
lemma retry_after_interrupted_commit (cfg : TrainerConfig) (s : TrainerState)
    (hTV : cfg.has_test = true → cfg.has_valid = true)
    (he : 1 ≤ s.epoch)
    (ht : s.train_loss_history.length = s.epoch - 1)
    (hv : s.valid_loss_history.length = (if cfg.has_valid then s.epoch - 1 else 0))
    (htt : s.test_loss_history.length = (if cfg.has_test then s.epoch - 1 else 0))
    (k : ℕ) :
    retry_save_loss_history cfg (trySaveFirst cfg k s) = try_save_loss_history cfg s := by
  cases hvv : cfg.has_valid <;> cases htb : cfg.has_test
  · -- no valid, no test
    simp [hvv, htb] at hv htt
    have hne : s.train_loss_history.length ≠ s.epoch := by omega
    rcases k with _ | k
    · rw [show trySaveFirst cfg 0 s = s by simp [trySaveFirst]]
      unfold retry_save_loss_history try_save_loss_history
      rw [retryTrainStep_pos s hne, retryValidStep_negFlag cfg _ hvv,
        retryTestStep_negFlag cfg _ htb, trySaveValidStep_neg cfg _ hvv,
        trySaveTestStep_neg cfg _ htb]
    · rw [show trySaveFirst cfg (k + 1) s = appendTrain s by
        simp [trySaveFirst, commitActions, hvv, htb, applyCommit]]
      unfold retry_save_loss_history try_save_loss_history
      rw [retryTrainStep_neg _ (by simp [appendTrain]; omega),
        retryValidStep_negFlag cfg _ hvv, retryTestStep_negFlag cfg _ htb,
        trySaveValidStep_neg cfg _ hvv, trySaveTestStep_neg cfg _ htb]
  · -- test without valid: excluded by the hypothesis
    rw [hTV htb] at hvv
    exact absurd hvv (by simp)
  · -- valid, no test
    simp [hvv, htb] at hv htt
    rcases k with _ | _ | k
    · rw [show trySaveFirst cfg 0 s = s by simp [trySaveFirst]]
      unfold retry_save_loss_history try_save_loss_history
      rw [retryTrainStep_pos s (by omega),
        retryValidStep_pos cfg _ hvv (by simp [appendTrain]; omega),
        retryTestStep_negFlag cfg _ htb,
        trySaveValidStep_pos cfg _ hvv, trySaveTestStep_neg cfg _ htb]
    · rw [show trySaveFirst cfg 1 s = appendTrain s by
        simp [trySaveFirst, commitActions, hvv, htb, applyCommit]]
      unfold retry_save_loss_history try_save_loss_history
      rw [retryTrainStep_neg _ (by simp [appendTrain]; omega),
        retryValidStep_pos cfg _ hvv (by simp [appendTrain]; omega),
        retryTestStep_negFlag cfg _ htb,
        trySaveValidStep_pos cfg _ hvv, trySaveTestStep_neg cfg _ htb]
    · rw [show trySaveFirst cfg (k + 2) s = appendValid (appendTrain s) by
        simp [trySaveFirst, commitActions, hvv, htb, applyCommit]]
      unfold retry_save_loss_history try_save_loss_history
      rw [retryTrainStep_neg _ (by simp [appendTrain, appendValid]; omega),
        retryValidStep_negLen cfg _ (by simp [appendTrain, appendValid]; omega),
        retryTestStep_negFlag cfg _ htb,
        trySaveValidStep_pos cfg _ hvv, trySaveTestStep_neg cfg _ htb]
  · -- valid and test
    simp [hvv, htb] at hv htt
    rcases k with _ | _ | _ | k
    · rw [show trySaveFirst cfg 0 s = s by simp [trySaveFirst]]
      unfold retry_save_loss_history try_save_loss_history
      rw [retryTrainStep_pos s (by omega),
        retryValidStep_pos cfg _ hvv (by simp [appendTrain]; omega),
        retryTestStep_pos cfg _ htb (by simp [appendTrain, appendValid]; omega),
        trySaveValidStep_pos cfg _ hvv, trySaveTestStep_pos cfg _ htb]
    · rw [show trySaveFirst cfg 1 s = appendTrain s by
        simp [trySaveFirst, commitActions, hvv, htb, applyCommit]]
      unfold retry_save_loss_history try_save_loss_history
      rw [retryTrainStep_neg _ (by simp [appendTrain]; omega),
        retryValidStep_pos cfg _ hvv (by simp [appendTrain]; omega),
        retryTestStep_pos cfg _ htb (by simp [appendTrain, appendValid]; omega),
        trySaveValidStep_pos cfg _ hvv, trySaveTestStep_pos cfg _ htb]
    · rw [show trySaveFirst cfg 2 s = appendValid (appendTrain s) by
        simp [trySaveFirst, commitActions, hvv, htb, applyCommit]]
      unfold retry_save_loss_history try_save_loss_history
      rw [retryTrainStep_neg _ (by simp [appendTrain, appendValid]; omega),
        retryValidStep_negLen cfg _ (by simp [appendTrain, appendValid]; omega),
        retryTestStep_pos cfg _ htb (by simp [appendTrain, appendValid]; omega),
        trySaveValidStep_pos cfg _ hvv, trySaveTestStep_pos cfg _ htb]
    · rw [show trySaveFirst cfg (k + 3) s = appendTest (appendValid (appendTrain s)) by
        simp [trySaveFirst, commitActions, hvv, htb, applyCommit]]
      unfold retry_save_loss_history try_save_loss_history
      rw [retryTrainStep_neg _ (by simp [appendTrain, appendValid, appendTest]; omega),
        retryValidStep_negLen cfg _ (by simp [appendTrain, appendValid, appendTest]; omega),
        retryTestStep_negLen cfg _ (by simp [appendTrain, appendValid, appendTest]; omega),
        trySaveValidStep_pos cfg _ hvv, trySaveTestStep_pos cfg _ htb]

end TorchTrainer

namespace TorchTrainer

lemma commitNormal_fields (cfg : TrainerConfig) (s : TrainerState) :
    (commitNormal cfg s).train_loss_history = s.train_loss_history ++ [s.train_loss_tmp] ∧
    (commitNormal cfg s).valid_loss_history
        = s.valid_loss_history ++ (if cfg.has_valid then [s.val_loss_tmp] else []) ∧
    (commitNormal cfg s).test_loss_history
        = s.test_loss_history ++ (if cfg.has_test then [s.test_loss_tmp] else []) ∧
    (commitNormal cfg s).epoch = s.epoch + 1 ∧
    (commitNormal cfg s).completed = s.completed ∧
    (commitNormal cfg s).time_elapsed = s.time_elapsed + cfg.epoch_duration s.epoch ∧
    (commitNormal cfg s).reports = s.reports ++ [s.epoch] ∧
    (commitNormal cfg s).clip_calls = s.clip_calls ∧
    (commitNormal cfg s).network_mode = s.network_mode := by
  obtain ⟨a1, a2, a3, a4, a5, a6, a7, a8, a9⟩ := try_save_fields cfg s
  obtain ⟨b1, b2, b3, b4, b5, b6, b7, b8, b9⟩ :=
    finallyBlock_fields cfg (try_save_loss_history cfg s)
  unfold commitNormal
  exact ⟨b1.trans a1, b2.trans a2, b3.trans a3, by rw [b4, a4], b5.trans a5,
    by rw [b6, a6, a4], by rw [b7, a7, a4], b8.trans a8, b9.trans a9⟩

lemma commitCancelled_fields (cfg : TrainerConfig) (k : ℕ) (s : TrainerState) :
    (commitCancelled cfg k s).epoch = s.epoch + 1 ∧
    (commitCancelled cfg k s).completed = s.completed ∧
    (commitCancelled cfg k s).time_elapsed = s.time_elapsed + cfg.epoch_duration s.epoch ∧
    (commitCancelled cfg k s).reports = s.reports ++ [s.epoch] ∧
    (commitCancelled cfg k s).clip_calls = s.clip_calls ∧
    (commitCancelled cfg k s).network_mode = cfg.initial_mode := by
  obtain ⟨f1, f2, f3, f4, f5, f6⟩ := trySaveFirst_fields cfg k s
  obtain ⟨r1, r2, r3, r4, r5, r6⟩ := retry_fields cfg (trySaveFirst cfg k s)
  obtain ⟨_, _, _, b4, b5, b6, b7, b8, b9⟩ :=
    finallyBlock_fields cfg
      { retry_save_loss_history cfg (trySaveFirst cfg k s) with network_mode := cfg.initial_mode }
  unfold commitCancelled
  refine ⟨?_, ?_, ?_, ?_, ?_, ?_⟩
  · rw [b4]; show (retry_save_loss_history cfg (trySaveFirst cfg k s)).epoch + 1 = s.epoch + 1
    rw [r1, f1]
  · rw [b5]; show (retry_save_loss_history cfg (trySaveFirst cfg k s)).completed = s.completed
    rw [r2, f2]
  · rw [b6]
    show (retry_save_loss_history cfg (trySaveFirst cfg k s)).time_elapsed
        + cfg.epoch_duration (retry_save_loss_history cfg (trySaveFirst cfg k s)).epoch
      = s.time_elapsed + cfg.epoch_duration s.epoch
    rw [r3, f3, r1, f1]
  · rw [b7]
    show (retry_save_loss_history cfg (trySaveFirst cfg k s)).reports
        ++ [(retry_save_loss_history cfg (trySaveFirst cfg k s)).epoch]
      = s.reports ++ [s.epoch]
    rw [r4, f4, r1, f1]
  · rw [b8]; show (retry_save_loss_history cfg (trySaveFirst cfg k s)).clip_calls = s.clip_calls
    rw [r5, f5]
  · rw [b9]

end TorchTrainer

namespace TorchTrainer

lemma commitCancelled_eq (cfg : TrainerConfig) (s : TrainerState)
    (hTV : cfg.has_test = true → cfg.has_valid = true)
    (he : 1 ≤ s.epoch)
    (ht : s.train_loss_history.length = s.epoch - 1)
    (hv : s.valid_loss_history.length = (if cfg.has_valid then s.epoch - 1 else 0))
    (htt : s.test_loss_history.length = (if cfg.has_test then s.epoch - 1 else 0))
    (k : ℕ) :
    commitCancelled cfg k s
      = finallyBlock cfg
          { try_save_loss_history cfg s with network_mode := cfg.initial_mode } := by
  unfold commitCancelled
  rw [retry_after_interrupted_commit cfg s hTV he ht hv htt k]

lemma epochStep_completed (cfg : TrainerConfig) (sig : EpochSignal) (s : TrainerState)
    (nb : Option ℕ) :
    ((epochStep cfg sig s nb).1).state.completed = s.completed := by
  have hev : ∀ t n, (evalPhase cfg t n).1.completed = t.completed :=
    fun t n => (evalPhase_preserves cfg t n).2.2.2.2.1
  cases sig with
  | cancelTrain => rfl
  | errorTrain p => rfl
  | cancelEval =>
      by_cases htl : cfg.train_losses s.epoch = []
      · cases nb with
        | none => simp [epochStep, trainPhase_eq_error cfg s htl, RunOutcome.state]
        | some n =>
            simp only [epochStep, trainPhase_eq_stale cfg s n htl]
            split <;> rfl
      · simp only [epochStep, trainPhase_eq_ok cfg s nb htl]
        split <;> rfl
  | cancelCommit k =>
      by_cases htl : cfg.train_losses s.epoch = []
      · cases nb with
        | none => simp [epochStep, trainPhase_eq_error cfg s htl, RunOutcome.state]
        | some n =>
            simp only [epochStep, trainPhase_eq_stale cfg s n htl, RunOutcome.state]
            rw [(commitCancelled_fields cfg k _).2.1, hev]
      · simp only [epochStep, trainPhase_eq_ok cfg s nb htl, RunOutcome.state]
        rw [(commitCancelled_fields cfg k _).2.1, hev]
        rfl
  | nosig =>
      by_cases htl : cfg.train_losses s.epoch = []
      · cases nb with
        | none => simp [epochStep, trainPhase_eq_error cfg s htl, RunOutcome.state]
        | some n =>
            simp only [epochStep, trainPhase_eq_stale cfg s n htl, RunOutcome.state]
            rw [(commitNormal_fields cfg _).2.2.2.2.1, hev]
      · simp only [epochStep, trainPhase_eq_ok cfg s nb htl, RunOutcome.state]
        rw [(commitNormal_fields cfg _).2.2.2.2.1, hev]
        rfl

end TorchTrainer

namespace TorchTrainer

lemma histLenInv_transport {cfg : TrainerConfig} {s t : TrainerState}
    (hinv : histLenInv cfg s)
    (h1 : t.train_loss_history = s.train_loss_history)
    (h2 : t.valid_loss_history = s.valid_loss_history)
    (h3 : t.test_loss_history = s.test_loss_history)
    (h4 : t.epoch = s.epoch) : histLenInv cfg t := by
  obtain ⟨a, b, c, d⟩ := hinv
  exact ⟨by rw [h4]; exact a, by rw [h1, h4]; exact b, by rw [h2, h4]; exact c,
    by rw [h3, h4]; exact d⟩

lemma histLenInv_finallyBlock (cfg : TrainerConfig) (Y : TrainerState)
    (h1 : Y.train_loss_history.length = Y.epoch)
    (h2 : Y.valid_loss_history.length = (if cfg.has_valid then Y.epoch else 0))
    (h3 : Y.test_loss_history.length = (if cfg.has_test then Y.epoch else 0)) :
    histLenInv cfg (finallyBlock cfg Y) := by
  obtain ⟨b1, b2, b3, b4, _, _, _, _, _⟩ := finallyBlock_fields cfg Y
  refine ⟨by rw [b4]; omega, by rw [b1, b4, h1]; omega, ?_, ?_⟩
  · rw [b2, b4, h2]
    cases hvv : cfg.has_valid <;> simp [hvv]
  · rw [b3, b4, h3]
    cases htb : cfg.has_test <;> simp [htb]

lemma try_save_lengths (cfg : TrainerConfig) (s : TrainerState)
    (hinv : histLenInv cfg s) :
    (try_save_loss_history cfg s).train_loss_history.length = s.epoch ∧
    (try_save_loss_history cfg s).valid_loss_history.length
        = (if cfg.has_valid then s.epoch else 0) ∧
    (try_save_loss_history cfg s).test_loss_history.length
        = (if cfg.has_test then s.epoch else 0) := by
  obtain ⟨he, ht, hv, htt⟩ := hinv
  obtain ⟨a1, a2, a3, _, _, _, _, _, _⟩ := try_save_fields cfg s
  refine ⟨by rw [a1]; simp; omega, ?_, ?_⟩
  · rw [a2]
    cases hvv : cfg.has_valid <;> simp [hvv] at hv ⊢ <;> first | assumption | omega
  · rw [a3]
    cases htb : cfg.has_test <;> simp [htb] at htt ⊢ <;> first | assumption | omega

lemma histLenInv_commitNormal (cfg : TrainerConfig) (s : TrainerState)
    (hinv : histLenInv cfg s) : histLenInv cfg (commitNormal cfg s) := by
  obtain ⟨l1, l2, l3⟩ := try_save_lengths cfg s hinv
  have he := hinv.1
  unfold commitNormal
  apply histLenInv_finallyBlock <;>
    rw [(try_save_fields cfg s).2.2.2.1] <;> assumption

lemma histLenInv_commitSalvaged (cfg : TrainerConfig) (s : TrainerState) (m : Bool)
    (hinv : histLenInv cfg s) :
    histLenInv cfg
      (finallyBlock cfg { try_save_loss_history cfg s with network_mode := m }) := by
  obtain ⟨l1, l2, l3⟩ := try_save_lengths cfg s hinv
  apply histLenInv_finallyBlock
  · show (try_save_loss_history cfg s).train_loss_history.length
      = (try_save_loss_history cfg s).epoch
    rw [(try_save_fields cfg s).2.2.2.1]; exact l1
  · show (try_save_loss_history cfg s).valid_loss_history.length
      = (if cfg.has_valid then (try_save_loss_history cfg s).epoch else 0)
    rw [(try_save_fields cfg s).2.2.2.1]; exact l2
  · show (try_save_loss_history cfg s).test_loss_history.length
      = (if cfg.has_test then (try_save_loss_history cfg s).epoch else 0)
    rw [(try_save_fields cfg s).2.2.2.1]; exact l3

lemma epochStep_inv (cfg : TrainerConfig) (sig : EpochSignal) (s : TrainerState)
    (nb : Option ℕ) (hTV : cfg.has_test = true → cfg.has_valid = true)
    (hinv : histLenInv cfg s) :
    histLenInv cfg ((epochStep cfg sig s nb).1).state := by
  have hev := fun t n => evalPhase_preserves cfg t n
  cases sig with
  | cancelTrain => exact hinv
  | errorTrain p => exact hinv
  | cancelEval =>
      by_cases htl : cfg.train_losses s.epoch = []
      · cases nb with
        | none =>
            simp only [epochStep, trainPhase_eq_error cfg s htl, RunOutcome.state]
            exact hinv
        | some n =>
            simp only [epochStep, trainPhase_eq_stale cfg s n htl]
            split <;> exact hinv
      · simp only [epochStep, trainPhase_eq_ok cfg s nb htl]
        split <;> exact hinv
  | cancelCommit k =>
      by_cases htl : cfg.train_losses s.epoch = []
      · cases nb with
        | none =>
            simp only [epochStep, trainPhase_eq_error cfg s htl, RunOutcome.state]
            exact hinv
        | some n =>
            simp only [epochStep, trainPhase_eq_stale cfg s n htl, RunOutcome.state]
            have hX := hev { s with network_mode := true, train_loss_tmp := 0 } n
            have hXinv : histLenInv cfg
                (evalPhase cfg { s with network_mode := true, train_loss_tmp := 0 } n).1 :=
              histLenInv_transport hinv hX.1 hX.2.1 hX.2.2.1 hX.2.2.2.1
            rw [commitCancelled_eq cfg _ hTV hXinv.1 hXinv.2.1 hXinv.2.2.1 hXinv.2.2.2 k]
            exact histLenInv_commitSalvaged cfg _ _ hXinv
      · simp only [epochStep, trainPhase_eq_ok cfg s nb htl, RunOutcome.state]
        have hX := hev (trainOkState cfg s) (cfg.train_losses s.epoch).length
        have hXinv : histLenInv cfg
            (evalPhase cfg (trainOkState cfg s) (cfg.train_losses s.epoch).length).1 :=
          histLenInv_transport hinv hX.1 hX.2.1 hX.2.2.1 hX.2.2.2.1
        rw [commitCancelled_eq cfg _ hTV hXinv.1 hXinv.2.1 hXinv.2.2.1 hXinv.2.2.2 k]
        exact histLenInv_commitSalvaged cfg _ _ hXinv
  | nosig =>
      by_cases htl : cfg.train_losses s.epoch = []
      · cases nb with
        | none =>
            simp only [epochStep, trainPhase_eq_error cfg s htl, RunOutcome.state]
            exact hinv
        | some n =>
            simp only [epochStep, trainPhase_eq_stale cfg s n htl, RunOutcome.state]
            have hX := hev { s with network_mode := true, train_loss_tmp := 0 } n
            have hXinv : histLenInv cfg
                (evalPhase cfg { s with network_mode := true, train_loss_tmp := 0 } n).1 :=
              histLenInv_transport hinv hX.1 hX.2.1 hX.2.2.1 hX.2.2.2.1
            exact histLenInv_commitNormal cfg _ hXinv
      · simp only [epochStep, trainPhase_eq_ok cfg s nb htl, RunOutcome.state]
        have hX := hev (trainOkState cfg s) (cfg.train_losses s.epoch).length
        have hXinv : histLenInv cfg
            (evalPhase cfg (trainOkState cfg s) (cfg.train_losses s.epoch).length).1 :=
          histLenInv_transport hinv hX.1 hX.2.1 hX.2.2.1 hX.2.2.2.1
        exact histLenInv_commitNormal cfg _ hXinv

end TorchTrainer

namespace TorchTrainer

lemma epochStep_nosig_eq (cfg : TrainerConfig) (s : TrainerState) (nb : Option ℕ)
    (h : cfg.train_losses s.epoch ≠ []) :
    epochStep cfg EpochSignal.nosig s nb
      = (RunOutcome.ok
          (commitNormal cfg
            (evalPhase cfg (trainOkState cfg s) (cfg.train_losses s.epoch).length).1),
         some (evalPhase cfg (trainOkState cfg s) (cfg.train_losses s.epoch).length).2) := by
  simp [epochStep, trainPhase_eq_ok cfg s nb h]

lemma epochStep_nosig_ok_parts (cfg : TrainerConfig) (s : TrainerState) (nb : Option ℕ)
    (h : cfg.train_losses s.epoch ≠ []) :
    ∃ s1 nb1, epochStep cfg EpochSignal.nosig s nb = (RunOutcome.ok s1, nb1) ∧
      s1.epoch = s.epoch + 1 ∧ s1.completed = s.completed ∧
      s1.train_loss_history = s.train_loss_history
        ++ [(cfg.train_losses s.epoch).sum / ((cfg.train_losses s.epoch).length : ℚ)] := by
  rw [epochStep_nosig_eq cfg s nb h]
  have hX := evalPhase_preserves cfg (trainOkState cfg s) (cfg.train_losses s.epoch).length
  obtain ⟨c1, c2, c3, c4, c5, c6, c7, c8, c9⟩ :=
    commitNormal_fields cfg
      (evalPhase cfg (trainOkState cfg s) (cfg.train_losses s.epoch).length).1
  refine ⟨_, _, rfl, ?_, ?_, ?_⟩
  · rw [c4, hX.2.2.2.1]
    rfl
  · rw [c5, hX.2.2.2.2.1]
    rfl
  · rw [c1, hX.1, hX.2.2.2.2.2.2.2.2]
    rfl

lemma trainLoop_ok_mode (cfg : TrainerConfig) (sched : ℕ → EpochSignal) :
    ∀ (fuel : ℕ) (s : TrainerState) (nb : Option ℕ) (s' : TrainerState),
      trainLoop cfg sched fuel s nb = RunOutcome.ok s' →
      s'.network_mode = cfg.initial_mode := by
  intro fuel
  induction fuel with
  | zero =>
      intro s nb s' h
      simp only [trainLoop, RunOutcome.ok.injEq] at h
      rw [← h]
  | succ fuel ih =>
      intro s nb s' h
      simp only [trainLoop] at h
      rcases he : epochStep cfg (sched s.epoch) s nb with ⟨out, nb1⟩
      rw [he] at h
      cases out with
      | ok s1 => exact ih s1 nb1 s' h
      | cancelled s1 => exact absurd h (by simp)
      | failed s1 => exact absurd h (by simp)

lemma trainLoop_interrupted_completed (cfg : TrainerConfig) (sched : ℕ → EpochSignal) :
    ∀ (fuel : ℕ) (s : TrainerState) (nb : Option ℕ),
      (trainLoop cfg sched fuel s nb).isOk = false →
      (trainLoop cfg sched fuel s nb).state.completed = s.completed := by
  intro fuel
  induction fuel with
  | zero =>
      intro s nb h
      simp [trainLoop, RunOutcome.isOk] at h
  | succ fuel ih =>
      intro s nb h
      have hc := epochStep_completed cfg (sched s.epoch) s nb
      simp only [trainLoop] at h ⊢
      rcases he : epochStep cfg (sched s.epoch) s nb with ⟨out, nb1⟩
      rw [he] at h hc
      cases out with
      | ok s1 => exact (ih s1 nb1 h).trans hc
      | cancelled s1 => exact hc
      | failed s1 => exact hc

lemma epochStep_commitCancel_cancelled_mode (cfg : TrainerConfig) (k : ℕ) (s : TrainerState)
    (nb : Option ℕ) (s1 : TrainerState)
    (h : (epochStep cfg (EpochSignal.cancelCommit k) s nb).1 = RunOutcome.cancelled s1) :
    s1.network_mode = cfg.initial_mode := by
  by_cases htl : cfg.train_losses s.epoch = []
  · cases nb with
    | none =>
        rw [show (epochStep cfg (EpochSignal.cancelCommit k) s Option.none).1
            = RunOutcome.failed { s with network_mode := true } by
          simp [epochStep, trainPhase_eq_error cfg s htl]] at h
        exact absurd h (by simp)
    | some n =>
        simp only [epochStep, trainPhase_eq_stale cfg s n htl,
          RunOutcome.cancelled.injEq] at h
        rw [← h]
        exact (commitCancelled_fields cfg k _).2.2.2.2.2
  · simp only [epochStep, trainPhase_eq_ok cfg s nb htl, RunOutcome.cancelled.injEq] at h
    rw [← h]
    exact (commitCancelled_fields cfg k _).2.2.2.2.2

lemma epochStep_nosig_not_cancelled (cfg : TrainerConfig) (s : TrainerState)
    (nb : Option ℕ) (s1 : TrainerState) :
    (epochStep cfg EpochSignal.nosig s nb).1 ≠ RunOutcome.cancelled s1 := by
  by_cases htl : cfg.train_losses s.epoch = []
  · cases nb with
    | none => simp [epochStep, trainPhase_eq_error cfg s htl]
    | some n => simp [epochStep, trainPhase_eq_stale cfg s n htl]
  · simp [epochStep, trainPhase_eq_ok cfg s nb htl]

lemma trainLoop_cancelled_mode (cfg : TrainerConfig) (sched : ℕ → EpochSignal)
    (hsched : ∀ e, sched e = EpochSignal.nosig
      ∨ ∃ k, sched e = EpochSignal.cancelCommit k) :
    ∀ (fuel : ℕ) (s : TrainerState) (nb : Option ℕ) (s' : TrainerState),
      trainLoop cfg sched fuel s nb = RunOutcome.cancelled s' →
      s'.network_mode = cfg.initial_mode := by
  intro fuel
  induction fuel with
  | zero =>
      intro s nb s' h
      simp [trainLoop] at h
  | succ fuel ih =>
      intro s nb s' h
      simp only [trainLoop] at h
      rcases he : epochStep cfg (sched s.epoch) s nb with ⟨out, nb1⟩
      rw [he] at h
      cases out with
      | ok s1 => exact ih s1 nb1 s' h
      | cancelled s1 =>
          have h1 : (epochStep cfg (sched s.epoch) s nb).1 = RunOutcome.cancelled s1 := by
            rw [he]
          simp only [RunOutcome.cancelled.injEq] at h
          rw [← h]
          rcases hsched s.epoch with hn | ⟨k, hk⟩
          · rw [hn] at h1
            exact absurd h1 (epochStep_nosig_not_cancelled cfg s nb s1)
          · rw [hk] at h1
            exact epochStep_commitCancel_cancelled_mode cfg k s nb s1 h1
      | failed s1 => exact absurd h (by simp)

lemma trainLoop_clean (cfg : TrainerConfig) (h : ∀ e, cfg.train_losses e ≠ []) :
    ∀ (fuel : ℕ) (s : TrainerState) (nb : Option ℕ),
      ∃ s', trainLoop cfg schedClean fuel s nb = RunOutcome.ok s' ∧
        s'.completed = true ∧ s'.epoch = s.epoch + fuel ∧
        s'.network_mode = cfg.initial_mode := by
  intro fuel
  induction fuel with
  | zero =>
      intro s nb
      exact ⟨_, rfl, rfl, rfl, rfl⟩
  | succ fuel ih =>
      intro s nb
      obtain ⟨s1, nb1, he, hep, _, _⟩ := epochStep_nosig_ok_parts cfg s nb (h s.epoch)
      obtain ⟨s', hrun, hcomp, hepoch, hmode⟩ := ih s1 nb1
      refine ⟨s', ?_, hcomp, ?_, hmode⟩
      · simp only [trainLoop, schedClean]
        rw [he]
        exact hrun
      · omega

lemma trainLoop_inv (cfg : TrainerConfig) (sched : ℕ → EpochSignal)
    (hTV : cfg.has_test = true → cfg.has_valid = true) :
    ∀ (fuel : ℕ) (s : TrainerState) (nb : Option ℕ),
      histLenInv cfg s → histLenInv cfg (trainLoop cfg sched fuel s nb).state := by
  intro fuel
  induction fuel with
  | zero =>
      intro s nb hinv
      exact hinv
  | succ fuel ih =>
      intro s nb hinv
      have hstep := epochStep_inv cfg (sched s.epoch) s nb hTV hinv
      simp only [trainLoop]
      rcases he : epochStep cfg (sched s.epoch) s nb with ⟨out, nb1⟩
      rw [he] at hstep
      cases out with
      | ok s1 => exact ih s1 nb1 hstep
      | cancelled s1 => exact hstep
      | failed s1 => exact hstep

end TorchTrainer

namespace TorchTrainer

/-- Claim C8: after `clear_history` on any reachable controller state, all
three loss histories are empty, `epoch = 1`, `completed = false` and
`time_elapsed = 0`, while everything else the state carries (network mode,
per-epoch temporaries, ghost traces) is untouched; the configuration is a
separate immutable record that `clear_history` does not even receive. -/
theorem c8_clear_resets (s : TrainerState) :
    (clear_history s).train_loss_history = [] ∧
    (clear_history s).valid_loss_history = [] ∧
    (clear_history s).test_loss_history = [] ∧
    (clear_history s).epoch = 1 ∧
    (clear_history s).completed = false ∧
    (clear_history s).time_elapsed = 0 ∧
    (clear_history s).network_mode = s.network_mode ∧
    (clear_history s).train_loss_tmp = s.train_loss_tmp ∧
    (clear_history s).val_loss_tmp = s.val_loss_tmp ∧
    (clear_history s).test_loss_tmp = s.test_loss_tmp ∧
    (clear_history s).reports = s.reports ∧
    (clear_history s).clip_calls = s.clip_calls := by
  exact ⟨rfl, rfl, rfl, rfl, rfl, rfl, rfl, rfl, rfl, rfl, rfl, rfl⟩

/-- Claim C9: in an undisturbed epoch, the number of gradient-clip
invocations grows by zero when `clip_rate` is `None` and by exactly one per
training batch when it is set (by construction of `trainBatchFold`, the
clip sits between the backward call and the optimizer step); the evaluation
phase never performs a clip call. -/
theorem c9_clip_gating :
    (∀ (cfg : TrainerConfig) (s : TrainerState) (nb : Option ℕ),
      ((epochStep cfg EpochSignal.nosig s nb).1).state.clip_calls
        = s.clip_calls
          + (if cfg.clip_rate.isSome then (cfg.train_losses s.epoch).length else 0)) ∧
    (∀ (cfg : TrainerConfig) (s : TrainerState) (n : ℕ),
      (evalPhase cfg s n).1.clip_calls = s.clip_calls) := by
  constructor
  · intro cfg s nb
    by_cases htl : cfg.train_losses s.epoch = []
    · cases nb with
      | none =>
          simp [epochStep, trainPhase_eq_error cfg s htl, RunOutcome.state, htl]
      | some n =>
          simp only [epochStep, trainPhase_eq_stale cfg s n htl, RunOutcome.state]
          rw [(commitNormal_fields cfg _).2.2.2.2.2.2.2.1,
            (evalPhase_preserves cfg _ n).2.2.2.2.2.2.2.1]
          simp [htl]
    · simp only [epochStep, trainPhase_eq_ok cfg s nb htl, RunOutcome.state]
      rw [(commitNormal_fields cfg _).2.2.2.2.2.2.2.1,
        (evalPhase_preserves cfg _ _).2.2.2.2.2.2.2.1]
      rfl
  · intro cfg s n
    exact (evalPhase_preserves cfg s n).2.2.2.2.2.2.2.1

/-- Claim C6: in an undisturbed epoch whose train source yields at least one
batch, the value committed to the train history is the sum of the per-batch
losses divided by the batch count — the arithmetic mean over batches. -/
theorem c6_mean_aggregation (cfg : TrainerConfig) (s : TrainerState) (nb : Option ℕ)
    (h : cfg.train_losses s.epoch ≠ []) :
    ((epochStep cfg EpochSignal.nosig s nb).1).state.train_loss_history
      = s.train_loss_history
        ++ [(cfg.train_losses s.epoch).sum / ((cfg.train_losses s.epoch).length : ℚ)] := by
  obtain ⟨s1, nb1, he, _, _, hh⟩ := epochStep_nosig_ok_parts cfg s nb h
  rw [he]
  exact hh

/-- Witness for C6: with per-batch losses 2, 4, 6, the committed value of
the epoch is 4. -/
theorem c6_witness :
    cfgFull.train_losses (initState cfgFull).epoch ≠ [] ∧
    ((epochStep cfgFull EpochSignal.nosig (initState cfgFull) Option.none).1).state.train_loss_history
      = [4] := by
  refine ⟨by simp [cfgFull, initState], ?_⟩
  rw [c6_mean_aggregation cfgFull (initState cfgFull) Option.none
    (by simp [cfgFull, initState])]
  norm_num [cfgFull, initState]

/-- Claim C7: when the train source yields no batches in the first epoch a
call to `train()` executes, the local `n_batch` name is never bound, the
mean computation raises (a non-cancellation failure) before anything is
committed, and the call propagates it leaving every history, the epoch
counter, the timing and the report trace unchanged. -/
theorem c7_empty_train_source (cfg : TrainerConfig) (sched : ℕ → EpochSignal)
    (s : TrainerState)
    (hempty : cfg.train_losses s.epoch = [])
    (hrange : s.epoch ≤ cfg.n_epochs)
    (hsig : sched s.epoch = EpochSignal.nosig) :
    (train cfg sched s).isFailed = true ∧
    (train cfg sched s).state.train_loss_history = s.train_loss_history ∧
    (train cfg sched s).state.valid_loss_history = s.valid_loss_history ∧
    (train cfg sched s).state.test_loss_history = s.test_loss_history ∧
    (train cfg sched s).state.epoch = s.epoch ∧
    (train cfg sched s).state.completed = s.completed ∧
    (train cfg sched s).state.time_elapsed = s.time_elapsed ∧
    (train cfg sched s).state.reports = s.reports := by
  unfold train
  rw [show cfg.n_epochs + 1 - s.epoch = (cfg.n_epochs - s.epoch) + 1 by omega]
  simp only [trainLoop, hsig]
  rw [show epochStep cfg EpochSignal.nosig s Option.none
      = (RunOutcome.failed { s with network_mode := true }, Option.none) by
    simp [epochStep, trainPhase_eq_error cfg s hempty]]
  exact ⟨rfl, rfl, rfl, rfl, rfl, rfl, rfl, rfl⟩

/-- Witness for C7: a configured-but-empty train source makes the run fail
with nothing committed and the epoch counter still 1. -/
theorem c7_witness :
    cfgEmptyTrain.train_losses (initState cfgEmptyTrain).epoch = [] ∧
    (initState cfgEmptyTrain).epoch ≤ cfgEmptyTrain.n_epochs ∧
    schedClean (initState cfgEmptyTrain).epoch = EpochSignal.nosig ∧
    (train cfgEmptyTrain schedClean (initState cfgEmptyTrain)).isFailed = true ∧
    (train cfgEmptyTrain schedClean (initState cfgEmptyTrain)).state.epoch = 1 := by
  have h := c7_empty_train_source cfgEmptyTrain schedClean (initState cfgEmptyTrain)
    rfl (by decide) rfl
  exact ⟨rfl, by decide, rfl, h.1, h.2.2.2.2.1⟩

/-- Claim C10: a loss-history accessor returns a defensive copy: reading it
hands back a fresh list object with the same contents, mutating that object
afterwards leaves the controller's internal list unchanged, and the read
itself does not mutate the internal list (so two successive reads agree). -/
theorem c10_defensive_copy (h : Heap) (internal : ℕ) (hwf : internal < h.nextRef) :
    ((lossHistoryAccessor h internal).1.contents (lossHistoryAccessor h internal).2
      = h.contents internal) ∧
    (∀ v, ((lossHistoryAccessor h internal).1.write
        (lossHistoryAccessor h internal).2 v).contents internal
      = h.contents internal) ∧
    ((lossHistoryAccessor h internal).1.contents internal = h.contents internal) := by
  have hne : internal ≠ h.nextRef := Nat.ne_of_lt hwf
  unfold lossHistoryAccessor Heap.alloc Heap.write
  exact ⟨by simp, fun v => by simp [hne], by simp [hne]⟩

/-- Witness for C10: on a one-cell heap, appending to the copy leaves the
internal history empty. -/
theorem c10_witness :
    (0 < ({ contents := fun _ => [], nextRef := 1 } : Heap).nextRef) ∧
    ((lossHistoryAccessor { contents := fun _ => [], nextRef := 1 } 0).1.write
        (lossHistoryAccessor { contents := fun _ => [], nextRef := 1 } 0).2
        [5]).contents 0 = [] := by
  refine ⟨by decide, ?_⟩
  have h := (c10_defensive_copy { contents := fun _ => [], nextRef := 1 } 0 (by decide)).2.1 [5]
  simpa using h

end TorchTrainer

namespace TorchTrainer

/-- Claim C3: the finally-contract asymmetry.  When a cancellation arrives
during the commit phase (after any number `k` of its appends), the timing
update, the report push and the epoch increment still execute before the
cancellation propagates.  When a non-cancellation exception is raised inside
the training batch loop (after `p` completed batches, `p` less than the
batch count), it propagates without touching any history, without
incrementing the epoch, and without running the timing or report step. -/
theorem c3_finally_asymmetry (cfg : TrainerConfig) (s : TrainerState) (nb : Option ℕ)
    (k p : ℕ)
    (htl : cfg.train_losses s.epoch ≠ [])
    (_hp : p < (cfg.train_losses s.epoch).length) :
    ((epochStep cfg (EpochSignal.cancelCommit k) s nb).1).isCancelled = true ∧
    ((epochStep cfg (EpochSignal.cancelCommit k) s nb).1).state.time_elapsed
      = s.time_elapsed + cfg.epoch_duration s.epoch ∧
    ((epochStep cfg (EpochSignal.cancelCommit k) s nb).1).state.reports
      = s.reports ++ [s.epoch] ∧
    ((epochStep cfg (EpochSignal.cancelCommit k) s nb).1).state.epoch = s.epoch + 1 ∧
    ((epochStep cfg (EpochSignal.errorTrain p) s nb).1).isFailed = true ∧
    ((epochStep cfg (EpochSignal.errorTrain p) s nb).1).state.train_loss_history
      = s.train_loss_history ∧
    ((epochStep cfg (EpochSignal.errorTrain p) s nb).1).state.valid_loss_history
      = s.valid_loss_history ∧
    ((epochStep cfg (EpochSignal.errorTrain p) s nb).1).state.test_loss_history
      = s.test_loss_history ∧
    ((epochStep cfg (EpochSignal.errorTrain p) s nb).1).state.epoch = s.epoch ∧
    ((epochStep cfg (EpochSignal.errorTrain p) s nb).1).state.time_elapsed
      = s.time_elapsed ∧
    ((epochStep cfg (EpochSignal.errorTrain p) s nb).1).state.reports = s.reports := by
  have hcc := commitCancelled_fields cfg k
    (evalPhase cfg (trainOkState cfg s) (cfg.train_losses s.epoch).length).1
  have hev := evalPhase_preserves cfg (trainOkState cfg s) (cfg.train_losses s.epoch).length
  refine ⟨?_, ?_, ?_, ?_, rfl, rfl, rfl, rfl, rfl, rfl, rfl⟩ <;>
    simp only [epochStep, trainPhase_eq_ok cfg s nb htl, RunOutcome.state]
  · rfl
  · rw [hcc.2.2.1, hev.2.2.2.2.2.1, hev.2.2.2.1]
    rfl
  · rw [hcc.2.2.2.1, hev.2.2.2.2.2.2.1, hev.2.2.2.1]
    rfl
  · rw [hcc.1, hev.2.2.2.1]
    rfl

/-- Witness for C3: on a concrete configuration, a commit-phase cancellation
leaves the epoch incremented while a training-phase error leaves it
untouched. -/
theorem c3_witness :
    cfgFull.train_losses (initState cfgFull).epoch ≠ [] ∧
    0 < (cfgFull.train_losses (initState cfgFull).epoch).length ∧
    ((epochStep cfgFull (EpochSignal.cancelCommit 1) (initState cfgFull)
        Option.none).1).isCancelled = true ∧
    ((epochStep cfgFull (EpochSignal.cancelCommit 1) (initState cfgFull)
        Option.none).1).state.epoch = 2 ∧
    ((epochStep cfgFull (EpochSignal.errorTrain 0) (initState cfgFull)
        Option.none).1).isFailed = true ∧
    ((epochStep cfgFull (EpochSignal.errorTrain 0) (initState cfgFull)
        Option.none).1).state.epoch = 1 := by
  have h := c3_finally_asymmetry cfgFull (initState cfgFull) Option.none 1 0
    (by simp [cfgFull, initState]) (by simp [cfgFull, initState])
  exact ⟨by simp [cfgFull, initState], by simp [cfgFull, initState],
    h.1, h.2.2.2.1, h.2.2.2.2.1, h.2.2.2.2.2.2.2.2.1⟩

/-- Claim C5: the completion flag starts false, is preserved unchanged by
every epoch step (so it stays false at every stable observation point while
epochs remain), stays unchanged when a cancellation or a failure propagates
out of `train()`, and becomes true — with the epoch counter at
`n_epochs + 1` — when an uninterrupted run from the initial state finishes
all epochs. -/
theorem c5_completed_flag (cfg : TrainerConfig) :
    (initState cfg).completed = false ∧
    (∀ (sig : EpochSignal) (s : TrainerState) (nb : Option ℕ),
      ((epochStep cfg sig s nb).1).state.completed = s.completed) ∧
    (∀ (sched : ℕ → EpochSignal) (s s' : TrainerState),
      train cfg sched s = RunOutcome.cancelled s' → s'.completed = s.completed) ∧
    (∀ (sched : ℕ → EpochSignal) (s s' : TrainerState),
      train cfg sched s = RunOutcome.failed s' → s'.completed = s.completed) ∧
    ((∀ e, cfg.train_losses e ≠ []) →
      ∃ s', train cfg schedClean (initState cfg) = RunOutcome.ok s' ∧
        s'.completed = true ∧ s'.epoch = cfg.n_epochs + 1) := by
  refine ⟨rfl, epochStep_completed cfg, ?_, ?_, ?_⟩
  · intro sched s s' h
    have h2 := trainLoop_interrupted_completed cfg sched (cfg.n_epochs + 1 - s.epoch) s
      Option.none
    unfold train at h
    rw [h] at h2
    exact h2 rfl
  · intro sched s s' h
    have h2 := trainLoop_interrupted_completed cfg sched (cfg.n_epochs + 1 - s.epoch) s
      Option.none
    unfold train at h
    rw [h] at h2
    exact h2 rfl
  · intro hne
    obtain ⟨s', hrun, hcomp, hepoch, _⟩ :=
      trainLoop_clean cfg hne (cfg.n_epochs + 1 - (initState cfg).epoch) (initState cfg)
        Option.none
    refine ⟨s', hrun, hcomp, ?_⟩
    have h1 : (initState cfg).epoch = 1 := rfl
    omega

/-- Witness for C5: a cancellation leaves the flag false, and a clean run of
one epoch sets it with the epoch counter at 2. -/
theorem c5_witness :
    (train cfgPlain schedTrainCancel1 (initState cfgPlain)).state.completed = false ∧
    (∃ s', train cfgPlain schedClean (initState cfgPlain) = RunOutcome.ok s' ∧
      s'.completed = true ∧ s'.epoch = cfgPlain.n_epochs + 1) := by
  have h := c5_completed_flag cfgPlain
  constructor
  · exact h.2.2.1 schedTrainCancel1 (initState cfgPlain)
      ((train cfgPlain schedTrainCancel1 (initState cfgPlain)).state) rfl
  · exact h.2.2.2.2 (fun e => by simp [cfgPlain])

/-- Claim C2 counterexample: a cancellation arriving during the train phase
propagates out of `train()` with the network still in training mode
(`True`), not the `initial_mode` (`False`) captured at construction — the
`except KeyboardInterrupt` handler only wraps the commit phase. -/
theorem c2_counterexample :
    (train cfgPlain schedTrainCancel1 (initState cfgPlain)).isCancelled = true ∧
    cfgPlain.initial_mode = false ∧
    (train cfgPlain schedTrainCancel1 (initState cfgPlain)).state.network_mode = true := by
  exact ⟨rfl, rfl, rfl⟩

/-- Claim C2 (amended): the network mode flag equals the `initial_mode`
captured at construction whenever `run()` returns normally, and whenever a
cancellation that arrived during the commit phase (the only phase whose
cancellations the code handles) propagates out of `run()`. -/
theorem c2_mode_restoration :
    (∀ (cfg : TrainerConfig) (sched : ℕ → EpochSignal) (s s' : TrainerState),
      train cfg sched s = RunOutcome.ok s' → s'.network_mode = cfg.initial_mode) ∧
    (∀ (cfg : TrainerConfig) (sched : ℕ → EpochSignal) (s s' : TrainerState),
      (∀ e, sched e = EpochSignal.nosig ∨ ∃ k, sched e = EpochSignal.cancelCommit k) →
      train cfg sched s = RunOutcome.cancelled s' → s'.network_mode = cfg.initial_mode) := by
  constructor
  · intro cfg sched s s' h
    exact trainLoop_ok_mode cfg sched _ s Option.none s' h
  · intro cfg sched s s' hs h
    exact trainLoop_cancelled_mode cfg sched hs _ s Option.none s' h

/-- Witness for C2: a clean run restores the mode, and a run cancelled in
the commit phase restores it too. -/
theorem c2_witness :
    (train cfgPlain schedClean (initState cfgPlain)).state.network_mode
      = cfgPlain.initial_mode ∧
    (train cfgFull schedCommitCancel1 (initState cfgFull)).state.network_mode
      = cfgFull.initial_mode := by
  constructor
  · exact c2_mode_restoration.1 cfgPlain schedClean (initState cfgPlain)
      ((train cfgPlain schedClean (initState cfgPlain)).state) rfl
  · refine c2_mode_restoration.2 cfgFull schedCommitCancel1 (initState cfgFull)
      ((train cfgFull schedCommitCancel1 (initState cfgFull)).state) ?_ rfl
    intro e
    by_cases he : e = 1
    · exact Or.inr ⟨1, by simp [schedCommitCancel1, he]⟩
    · exact Or.inl (by simp [schedCommitCancel1, he])

end TorchTrainer

namespace TorchTrainer

/-- Claim C1 counterexample: with a test source configured but no valid
source, a cancellation arriving during the commit of epoch 1 after the
first append (the train entry) makes the recovery routine drop the test
entry: the retried run ends with an empty test history, whereas the
non-interrupted run of the same epoch commits one test entry (the train
histories agree). -/
theorem c1_counterexample :
    (train cfgTestOnly schedCommitCancel1 (initState cfgTestOnly)).state.test_loss_history.length
      = 0 ∧
    (train cfgTestOnly schedClean (initState cfgTestOnly)).state.test_loss_history.length
      = 1 ∧
    (train cfgTestOnly schedCommitCancel1 (initState cfgTestOnly)).state.train_loss_history.length
      = (train cfgTestOnly schedClean (initState cfgTestOnly)).state.train_loss_history.length := by
  exact ⟨rfl, rfl, rfl⟩

/-- Claim C1 (amended): for every configuration in which a valid source is
present whenever a test source is (the recovery routine compares the test
length against the valid length, so this is the scope in which it is
correct), and for every cancellation point `k` inside the commit of an
epoch that starts from a consistent pre-commit state, retrying the commit
via the recovery routine yields exactly the histories (hence the history
lengths) of the non-interrupted commit — no entry is appended twice and
none is dropped.  With a test source and no valid source, an interruption
before the test append permanently drops that epoch's test entry
(`c1_counterexample`). -/
theorem c1_idempotent_interrupted_commit (cfg : TrainerConfig) (s : TrainerState)
    (hTV : cfg.has_test = true → cfg.has_valid = true)
    (he : 1 ≤ s.epoch)
    (ht : s.train_loss_history.length = s.epoch - 1)
    (hv : s.valid_loss_history.length = (if cfg.has_valid then s.epoch - 1 else 0))
    (htt : s.test_loss_history.length = (if cfg.has_test then s.epoch - 1 else 0))
    (k : ℕ) :
    (retry_save_loss_history cfg (trySaveFirst cfg k s)).train_loss_history
      = (try_save_loss_history cfg s).train_loss_history ∧
    (retry_save_loss_history cfg (trySaveFirst cfg k s)).valid_loss_history
      = (try_save_loss_history cfg s).valid_loss_history ∧
    (retry_save_loss_history cfg (trySaveFirst cfg k s)).test_loss_history
      = (try_save_loss_history cfg s).test_loss_history := by
  rw [retry_after_interrupted_commit cfg s hTV he ht hv htt k]
  exact ⟨rfl, rfl, rfl⟩

/-- Witness for C1: with valid and test configured, interrupting after one
append and retrying reproduces the uninterrupted commit. -/
theorem c1_witness :
    (1 ≤ (initState cfgFull).epoch) ∧
    (retry_save_loss_history cfgFull (trySaveFirst cfgFull 1 (initState cfgFull))).test_loss_history
      = (try_save_loss_history cfgFull (initState cfgFull)).test_loss_history := by
  exact ⟨Nat.le_refl 1,
    (c1_idempotent_interrupted_commit cfgFull (initState cfgFull) (fun _ => rfl)
      (Nat.le_refl 1) rfl rfl rfl 1).2.2⟩

/-- Claim C4 counterexample: a stable observation point violating the
length invariant as stated.  After the interrupted run on a configuration
with a test source and no valid source, the cancellation has propagated,
the epoch counter is 2, yet the test history length (0) differs from the
train history length (1) although a test source is configured. -/
theorem c4_counterexample :
    (train cfgTestOnly schedCommitCancel1 (initState cfgTestOnly)).state.epoch = 2 ∧
    cfgTestOnly.has_test = true ∧
    (train cfgTestOnly schedCommitCancel1 (initState cfgTestOnly)).state.train_loss_history.length
      = 1 ∧
    (train cfgTestOnly schedCommitCancel1 (initState cfgTestOnly)).state.test_loss_history.length
      = 0 := by
  exact ⟨rfl, rfl, rfl, rfl⟩

/-- Claim C4 (amended): for configurations in which a valid source is
present whenever a test source is, the history length invariant holds at
every stable observation point: whenever `train()` returns or propagates an
exception from a state satisfying it, the resulting state has
`len(train) = epoch - 1`, `len(valid) = len(train)` iff valid is configured
(else 0), `len(test) = len(train)` iff test is configured (else 0), and the
test history never outgrows the valid history. -/
theorem c4_history_length_invariant (cfg : TrainerConfig) (sched : ℕ → EpochSignal)
    (s : TrainerState)
    (hTV : cfg.has_test = true → cfg.has_valid = true)
    (hinv : histLenInv cfg s) :
    histLenInv cfg (train cfg sched s).state ∧
    (train cfg sched s).state.test_loss_history.length
      ≤ (train cfg sched s).state.valid_loss_history.length := by
  have H := trainLoop_inv cfg sched hTV (cfg.n_epochs + 1 - s.epoch) s Option.none hinv
  refine ⟨H, ?_⟩
  obtain ⟨_, _, hv2, ht2⟩ := H
  unfold train
  rw [hv2, ht2]
  cases htb : cfg.has_test
  · simp
  · simp [hTV htb]

/-- Witness for C4: the invariant holds after a run of `cfgFull` cancelled
in the commit of epoch 1. -/
theorem c4_witness :
    histLenInv cfgFull (train cfgFull schedCommitCancel1 (initState cfgFull)).state ∧
    (train cfgFull schedCommitCancel1 (initState cfgFull)).state.test_loss_history.length
      ≤ (train cfgFull schedCommitCancel1 (initState cfgFull)).state.valid_loss_history.length := by
  exact c4_history_length_invariant cfgFull schedCommitCancel1 (initState cfgFull)
    (fun _ => rfl) ⟨Nat.le_refl 1, rfl, rfl, rfl⟩

end TorchTrainer
